import Mathlib

/-!
Shallow embedding of the falcon-protocol-system suppression engine.

The development models, directly from the JavaScript sources:
- the Identifier Index Store (`suppression-list-manager.js`): SQLite tables
  `suppression_lists` / `suppression_identifiers`, `createList` with its
  BEGIN/COMMIT/ROLLBACK transaction, identifier validation, and the
  `findAdvertisersForIdentifier` join;
- the Suppression Resolver and its cache (`falcon-server-enhanced.js`):
  `generateCacheKey`, `checkUserSuppression`, `cleanupCache`;
- the external Ad Server (`ad_server.js`): `checkTargetingRules`,
  `selectBannerWeighted`, `serveAd`;
- the Decision Orchestrator (`serveAdWithSuppression`) with its fallback path;
- the CSV importer (`suppression-list-importer.js`): `normalizeIdentifier`,
  `deduplicateIdentifiers`, and the flush step that hands identifiers to
  `createList`.

Modelling conventions: JavaScript `Set` objects are insertion-ordered
duplicate-free `List String` values; `Math.random()` draws are an explicit
rational parameter `r`; wall-clock derived fields (`processingTimeMs`) are
modelled as 0; database faults are an explicit fault oracle; the sha256
content digest is modelled as an injective deterministic tag.
-/

namespace Falcon

/-! ## JavaScript Set primitives -/

/-- Adding an element to a JS `Set`: a no-op when already present, otherwise
appended at the end (JS sets preserve insertion order). -/
def jsSetAdd (s : List String) (a : String) : List String :=
  if a ∈ s then s else s ++ [a]

/-- The JS `new Set(array)` constructor: insertion-ordered de-duplication. -/
def jsSetFromList (l : List String) : List String :=
  l.foldl jsSetAdd []

/-! ## String scaffolding

Character-list implementations of the string operations the sources use
(split, lowercase, ordering), written with structural recursion. ASCII
lowercasing models `toLowerCase`, and code-point lexicographic order models
`localeCompare`, which is what the data at hand (identifiers, type names)
exercises. -/

/-- Splitting a character list at every occurrence of a separator. -/
def splitOnChar (c : Char) : List Char → List (List Char)
  | [] => [[]]
  | x :: xs =>
    let rest := splitOnChar c xs
    if x = c then [] :: rest
    else
      match rest with
      | [] => [[x]]
      | seg :: segs => (x :: seg) :: segs

/-- ASCII lowercasing of a string, modelling `toLowerCase`. -/
def lowerAscii (s : String) : String :=
  String.mk (s.data.map Char.toLower)

/-- Code-point lexicographic order on character lists, modelling the
comparator `a.localeCompare(b)` used to sort cache-key entries. -/
def charListLe : List Char → List Char → Bool
  | [], _ => true
  | _ :: _, [] => false
  | x :: xs, y :: ys => if x = y then charListLe xs ys else decide (x < y)

/-- Lexicographic order on strings. -/
def strLe (a b : String) : Bool :=
  charListLe a.data b.data

/-! ## Identifier validation (suppression-list-manager.js, validateIdentifiers) -/

/-- Character class of the regex `/[a-f0-9]/i`. -/
def isHexChar (c : Char) : Bool :=
  ("abcdef0123456789".toList).contains c.toLower

/-- Character class of the regex `/[a-f0-9-]/i`. -/
def isHexHyphenChar (c : Char) : Bool :=
  isHexChar c || c == '-'

/-- Character class of the regex `/[a-z0-9]/i`. -/
def isAlnumChar (c : Char) : Bool :=
  (decide ('a' ≤ c.toLower) && decide (c.toLower ≤ 'z')) || c.isDigit

/-- Every character of the string satisfies the class predicate. -/
def allChars (p : Char → Bool) (s : String) : Bool :=
  s.data.all p

/-- looksLikeRawEmail: the regex `/^[^@]+@[^@]+\.[^@]+$/` - exactly one `@`,
a non-empty local part, and a domain with an interior dot. -/
def looksLikeRawEmail (s : String) : Bool :=
  match splitOnChar '@' s.data with
  | [locPart, domPart] =>
      (!(locPart.isEmpty)) && (((domPart.drop 1).dropLast).contains '.')
  | _ => false

/-- The regex `/^[a-f0-9]{50,70}$/i` used for hashed email identifiers. -/
def isEmailHashHex (s : String) : Bool :=
  decide (50 ≤ s.length) && decide (s.length ≤ 70) && allChars isHexChar s

/-- The regex `/^[a-z0-9]{50,70}$/i` used for hashed email identifiers. -/
def isEmailHashAlnum (s : String) : Bool :=
  decide (50 ≤ s.length) && decide (s.length ≤ 70) && allChars isAlnumChar s

/-- The regex `/^[a-f0-9-]+$/i` used for device identifiers. -/
def isHexHyphenId (s : String) : Bool :=
  (!(s == "")) && allChars isHexHyphenChar s

/-- The canonical UUID shape `/^[a-f0-9]{8}-([a-f0-9]{4}-){3}[a-f0-9]{12}$/i`. -/
def isUuidShape (s : String) : Bool :=
  let parts := splitOnChar '-' s.data
  (parts.map List.length == [8, 4, 4, 4, 12]) && parts.all (fun p => p.all isHexChar)

/-- The shape `/^iosdevice-[a-f0-9-]+$/i`. -/
def isIosDeviceId (s : String) : Bool :=
  let low := s.data.map Char.toLower
  ("iosdevice-".data).isPrefixOf low &&
    (!(low.drop 10).isEmpty) && (low.drop 10).all isHexHyphenChar

/-- validateIdentifiers accepts one identifier: for `email_hash`, a raw email
shape (accepted with a warning) or a 50-70 character hex / alphanumeric hash;
for `device_id`, hex-and-hyphen, an `iosdevice-` shape, or a UUID shape.
Other identifier types are not inspected by the loop (the type enum is
checked earlier by `createList`). -/
def validIdentifier (identifierType identifier : String) : Bool :=
  if identifierType == "email_hash" then
    looksLikeRawEmail identifier || isEmailHashHex identifier
      || isEmailHashAlnum identifier
  else if identifierType == "device_id" then
    isHexHyphenId identifier || isIosDeviceId identifier || isUuidShape identifier
  else true

/-! ## The Identifier Index Store -/

/-- One row of the `suppression_lists` table. -/
structure ListRow where
  id : String
  advertiser_id : String
  name : String
  description : String
  identifier_type : String
  created_at : String
  submitted_at : String
  last_updated : String
  size : Nat
  is_active : Bool
deriving DecidableEq

/-- One row of the `suppression_identifiers` table. Its primary key is
`identifier_hash`, a digest of the raw identifier alone. -/
structure IdentRow where
  identifier_hash : String
  identifier : String
  identifier_type : String
  list_id : String
  advertiser_id : String
deriving DecidableEq

/-- The persistent store: the two SQLite tables. -/
structure Store where
  lists : List ListRow
  identifiers : List IdentRow
deriving DecidableEq

/-- The store with both tables empty. -/
def emptyStore : Store := ⟨[], []⟩

/-- hashIdentifier computes `sha256(identifier)`; the digest is modelled as
an injective deterministic tag of the raw identifier. -/
def hashIdentifier (identifier : String) : String :=
  "sha256:" ++ identifier

/-- Errors thrown by `createList`: bad identifier type, malformed identifier,
the UNIQUE constraint on the list id, or an injected runtime failure of the
k-th identifier insert (the fault oracle models the database throwing). -/
inductive CreateListError
  | invalidType (t : String)
  | invalidIdentifier (identifier : String)
  | uniqueConstraint
  | insertFailure (k : Nat)
deriving DecidableEq

/-- The validateIdentifiers loop: throws on the first malformed identifier. -/
def validateIdentifiers (identifiers : List String) (identifierType : String) :
    Except CreateListError Unit :=
  match identifiers.find? (fun i => !(validIdentifier identifierType i)) with
  | some i => .error (.invalidIdentifier i)
  | none => .ok ()

/-- The identifier insert loop of `createList`: each `stmt.run` is an
`INSERT OR IGNORE` keyed on `identifier_hash`; `fault k` injects a runtime
failure of the k-th insert. -/
def insertIdentifierRows (fault : Nat → Bool) (identifierType listId advId : String) :
    List String → Nat → List IdentRow → Except CreateListError (List IdentRow)
  | [], _, rows => .ok rows
  | identifier :: rest, k, rows =>
    if fault k then .error (.insertFailure k)
    else
      let h := hashIdentifier identifier
      let rows' :=
        if rows.any (fun x => x.identifier_hash == h) then rows
        else rows ++ [⟨h, identifier, identifierType, listId, advId⟩]
      insertIdentifierRows fault identifierType listId advId rest (k + 1) rows'

/-- The input record accepted by `createList`. -/
structure ListData where
  id : String
  advertiser_id : String
  name : String
  description : String
  identifier_type : String
  identifiers : List String
  created_at : String
  submitted_at : String
  last_updated : String
deriving DecidableEq

/-- createList: validates the identifier type and every identifier, then runs
the metadata insert and the identifier inserts inside one transaction
(BEGIN ... COMMIT). The transaction body computes on a working snapshot;
an error aborts it. The metadata insert fails on the UNIQUE constraint when
a list row with the same id already exists. -/
def createList (fault : Nat → Bool) (store : Store) (d : ListData) :
    Except CreateListError Store :=
  if !(d.identifier_type == "email_hash") && !(d.identifier_type == "device_id") then
    .error (.invalidType d.identifier_type)
  else
    match validateIdentifiers d.identifiers d.identifier_type with
    | .error e => .error e
    | .ok _ =>
      if store.lists.any (fun l => l.id == d.id) then .error .uniqueConstraint
      else
        match insertIdentifierRows fault d.identifier_type d.id d.advertiser_id
            d.identifiers 0 store.identifiers with
        | .error e => .error e
        | .ok rows =>
          .ok { lists := store.lists ++
                  [⟨d.id, d.advertiser_id, d.name, d.description, d.identifier_type,
                    d.created_at, d.submitted_at, d.last_updated,
                    d.identifiers.length, true⟩],
                identifiers := rows }

/-- The observable effect of one `createList` call on the store: on any error
the transaction is rolled back, so the store is unchanged; on success the
committed store replaces it. -/
def runCreateList (fault : Nat → Bool) (store : Store) (d : ListData) :
    Store × Option CreateListError :=
  match createList fault store d with
  | .ok s => (s, none)
  | .error e => (store, some e)

/-- A fault oracle under which no insert fails. -/
def noFault : Nat → Bool := fun _ => false

/-- The result shape of the per-identifier store lookup. -/
structure LookupOutcome where
  suppressed : List String
  listsChecked : Nat
  details : List String
deriving DecidableEq

/-- findAdvertisersForIdentifier: the SQL join
`SELECT DISTINCT si.advertiser_id, sl.name FROM suppression_identifiers si
JOIN suppression_lists sl ON si.list_id = sl.id WHERE si.identifier = ? AND
si.identifier_type = ? AND sl.is_active = 1`, returning the advertiser set,
the matching row count, and one diagnostic line per match. -/
def findAdvertisersForIdentifier (store : Store) (identifier identifierType : String) :
    LookupOutcome :=
  let joined := store.identifiers.filterMap (fun si =>
    if si.identifier == identifier && si.identifier_type == identifierType then
      match store.lists.find? (fun sl => sl.id == si.list_id) with
      | some sl => if sl.is_active then some (si.advertiser_id, sl.name) else none
      | none => none
    else none)
  let results := joined.dedup
  { suppressed := jsSetFromList (results.map Prod.fst),
    listsChecked := results.length,
    details := results.map (fun p => "Found in list: " ++ p.2) }

/-! ## Suppression Check Cache and Resolver (falcon-server-enhanced.js) -/

/-- One cached value: the suppressed advertiser array (`Array.from(set)`),
the list count, the diagnostic lines, and the write timestamp. -/
structure CacheEntry where
  suppressedAdvertisers : List String
  listsChecked : Nat
  details : List String
  timestamp : Nat
deriving DecidableEq

/-- The mutable state of the EnhancedFalconServer relevant to suppression
checking: the cache `Map` and the observability counters. -/
structure ServerState where
  cache : List (String × CacheEntry)
  cacheHits : Nat
  cacheMisses : Nat
  totalRequests : Nat
  suppressionChecks : Nat
deriving DecidableEq

/-- The state built by the constructor: empty cache, zeroed counters. -/
def freshServerState : ServerState := ⟨[], 0, 0, 0, 0⟩

/-- The result record returned by `checkUserSuppression`. -/
structure SuppressionCheckResult where
  suppressedAdvertisers : List String
  totalListsChecked : Nat
  processingTimeMs : ℚ
  details : List String
deriving DecidableEq

/-- Map.get on the cache. -/
def lookupCache (cache : List (String × CacheEntry)) (k : String) : Option CacheEntry :=
  (cache.find? (fun p => p.1 == k)).map (fun p => p.2)

/-- Map.set on the cache: replace the entry under an existing key, else append. -/
def cacheSet (cache : List (String × CacheEntry)) (k : String) (e : CacheEntry) :
    List (String × CacheEntry) :=
  if (cache.find? (fun p => p.1 == k)).isSome then
    cache.map (fun p => if p.1 == k then (k, e) else p)
  else cache ++ [(k, e)]

/-- cleanupCache: one sweep deleting every entry older than the 5 minute TTL. -/
def cleanupCache (now : Nat) (cache : List (String × CacheEntry)) :
    List (String × CacheEntry) :=
  cache.filter (fun p => !(decide (5 * 60 * 1000 < now - p.2.timestamp)))

/-- The comparator `([a], [b]) => a.localeCompare(b)` on identifier pairs. -/
def keyLe (a b : String × String) : Prop :=
  strLe a.1 b.1 = true

instance : DecidableRel keyLe := fun _ _ => instDecidableEqBool _ _

/-- generateCacheKey: keep the non-empty identifier pairs, sort them by
identifier type, and join `type:value` pairs with the `|` delimiter. -/
def generateCacheKey (userIdentifiers : List (String × String)) : String :=
  let sortedEntries :=
    (userIdentifiers.filter (fun p => !(p.2 == ""))).insertionSort keyLe
  String.intercalate "|" (sortedEntries.map (fun p => p.1 ++ ":" ++ p.2))

/-- The per-identifier-type loop of `checkUserSuppression`: skip empty values,
catch a throwing lookup as a diagnostic line, union successful lookups into
the suppressed set and accumulate the checked-list count. The `lookup`
oracle models `findAdvertisersForIdentifier`, which may throw (for example
when the suppression manager is not initialized). -/
def checkLoop (lookup : String → String → Except String LookupOutcome) :
    List (String × String) → List String → List String → Nat →
    List String × List String × Nat
  | [], supp, details, checked => (supp, details, checked)
  | (identifierType, identifier) :: rest, supp, details, checked =>
    if identifier == "" then checkLoop lookup rest supp details checked
    else
      match lookup identifier identifierType with
      | .ok adv =>
        let checked' := checked + adv.listsChecked
        if 0 < adv.suppressed.length then
          checkLoop lookup rest (adv.suppressed.foldl jsSetAdd supp)
            (details ++ [identifierType ++ " matched " ++
              toString adv.suppressed.length ++ " advertisers"]) checked'
        else checkLoop lookup rest supp details checked'
      | .error msg =>
        checkLoop lookup rest supp
          (details ++ ["Error checking " ++ identifierType ++ ": " ++ msg]) checked

/-- The cache-write step of the miss path: the merged result is cached only
when it suppresses at least one advertiser; once the cache exceeds 10000
keys, expired entries are swept in one pass. -/
def missCache (cacheEnabled : Bool) (now : Nat) (cache : List (String × CacheEntry))
    (cacheKey : String) (supp details : List String) (listsChecked : Nat) :
    List (String × CacheEntry) :=
  if cacheEnabled && decide (0 < supp.length) then
    let c1 := cacheSet cache cacheKey ⟨supp, listsChecked, details, now⟩
    if 10000 < c1.length then cleanupCache now c1 else c1
  else cache

/-- The cache-miss path of `checkUserSuppression`: run the lookup loop,
bump the counters, and apply the cache-write step. -/
def checkMiss (cacheEnabled : Bool) (lookup : String → String → Except String LookupOutcome)
    (now : Nat) (st : ServerState) (ids : List (String × String)) (cacheKey : String) :
    SuppressionCheckResult × ServerState :=
  let out := checkLoop lookup ids [] [] 0
  let supp := out.1
  let details := out.2.1
  let listsChecked := out.2.2
  (⟨supp, listsChecked, 0, details⟩,
   { cache := missCache cacheEnabled now st.cache cacheKey supp details listsChecked
     cacheHits := st.cacheHits
     cacheMisses := st.cacheMisses + 1
     totalRequests := st.totalRequests + 1
     suppressionChecks := st.suppressionChecks + listsChecked })

/-- checkUserSuppression: generate the canonical key; on a cache hit return a
result whose suppressed set is rebuilt (`new Set`) from the cached array,
prepending the cache diagnostic; otherwise take the miss path. -/
def checkUserSuppression (cacheEnabled : Bool)
    (lookup : String → String → Except String LookupOutcome) (now : Nat)
    (st : ServerState) (ids : List (String × String)) :
    SuppressionCheckResult × ServerState :=
  let cacheKey := generateCacheKey ids
  if cacheEnabled then
    match lookupCache st.cache cacheKey with
    | some cached =>
      (⟨jsSetFromList cached.suppressedAdvertisers, cached.listsChecked, 0,
        "Result served from cache" :: cached.details⟩,
       { st with cacheHits := st.cacheHits + 1 })
    | none => checkMiss cacheEnabled lookup now st ids cacheKey
  else checkMiss cacheEnabled lookup now st ids cacheKey

/-- The cache-content invariant: every cached entry suppresses at least one
advertiser. -/
def cacheNonempty (cache : List (String × CacheEntry)) : Prop :=
  ∀ p ∈ cache, p.2.suppressedAdvertisers ≠ []

/-! ## The external Ad Server (ad_server.js) -/

/-- A request custom-parameter value: a string, a number, an array (such as
`suppress_advertisers`), or JS `undefined` for an absent key. -/
inductive ParamValue
  | str (s : String)
  | num (q : ℚ)
  | arr (l : List String)
  | undef
deriving DecidableEq

/-- Template-literal rendering of a parameter value, for reason strings. -/
def paramToString : ParamValue → String
  | .str s => s
  | .num q => toString q
  | .arr l => String.intercalate "," l
  | ParamValue.undef => "undefined"

/-- A banner of the ad inventory, with its weight and targeting rule maps. -/
structure Banner where
  id : String
  advertiserId : String
  campaignId : String
  name : String
  creativeUrl : String
  landingPage : String
  weight : ℚ
  includeParams : List (String × String)
  excludeParams : List (String × String)
deriving DecidableEq

/-- The request shape consumed by `AdServer.serveAd`. -/
structure AdRequestM where
  placementId : String
  userEmailHash : Option String
  userDeviceId : Option String
  siteId : String
  pageUrl : String
  userAgent : Option String
  ipAddress : Option String
  customParams : List (String × ParamValue)
deriving DecidableEq

/-- The response shape produced by `AdServer.serveAd`. -/
structure AdResponse where
  bannerId : Option String
  advertiserId : Option String
  creativeUrl : Option String
  landingPage : Option String
  served : Bool
  reason : String
  processingTimeMs : ℚ
deriving DecidableEq

/-- Reading `request.customParams[key]`: `undefined` when absent. -/
def lookupParam (params : List (String × ParamValue)) (k : String) : ParamValue :=
  match params.find? (fun p => p.1 == k) with
  | some p => p.2
  | none => ParamValue.undef

/-- The include-rule loop: every key must equal the request value exactly;
returns the failure reason of the first violated rule. -/
def checkInclude (params : List (String × ParamValue)) :
    List (String × String) → Option String
  | [] => none
  | (k, required) :: rest =>
    if lookupParam params k == ParamValue.str required then checkInclude params rest
    else some ("Include rule failed: " ++ k ++ " = " ++
      paramToString (lookupParam params k) ++ ", required = " ++ required)

/-- One exclude rule fires when the request value is an array containing the
excluded value, or is strictly equal to it. -/
def excludeMatches (v : ParamValue) (excluded : String) : Bool :=
  match v with
  | .arr l => if excluded ∈ l then true else false
  | .str s => s == excluded
  | _ => false

/-- The exclude-rule loop: no key may match; returns the failure reason of the
first matching rule. -/
def checkExclude (params : List (String × ParamValue)) :
    List (String × String) → Option String
  | [] => none
  | (k, excluded) :: rest =>
    match lookupParam params k with
    | .arr l =>
      if excluded ∈ l then
        some ("Exclude rule matched: " ++ k ++ " contains " ++ excluded)
      else checkExclude params rest
    | v =>
      if excludeMatches v excluded then
        some ("Exclude rule matched: " ++ k ++ " = " ++ paramToString v)
      else checkExclude params rest

/-- checkTargetingRules: include rules all pass and exclude rules all miss. -/
def checkTargetingRules (banner : Banner) (request : AdRequestM) : Bool × String :=
  match checkInclude request.customParams banner.includeParams with
  | some reason => (false, reason)
  | none =>
    match checkExclude request.customParams banner.excludeParams with
    | some reason => (false, reason)
    | none => (true, "Targeting rules passed")

/-- The ad server with its precomputed placement-to-banners cache. -/
structure AdServerModel where
  placementBannerCache : List (String × List Banner)
deriving DecidableEq

/-- Banners eligible for a placement (`placementBannerCache[placementId] or empty`). -/
def getPlacementBanners (server : AdServerModel) (placementId : String) : List Banner :=
  match server.placementBannerCache.find? (fun p => p.1 == placementId) with
  | some p => p.2
  | none => []

/-- The accumulation walk of `selectBannerWeighted`: return the first banner
whose cumulative weight reaches the target, `none` when the loop falls off
the end. -/
def walkWeighted : List Banner → ℚ → ℚ → Option Banner
  | [], _, _ => none
  | b :: rest, current, target =>
    let current' := current + b.weight
    if target ≤ current' then some b else walkWeighted rest current' target

/-- selectBannerWeighted with the `Math.random()` draw `r` made explicit:
`none` on an empty pool; for zero total weight a uniform pick at index
`floor(r * length)`; otherwise the weighted walk with target `r * total`,
falling back to the last banner when the walk undershoots. -/
def selectBannerWeighted (eligibleBanners : List Banner) (r : ℚ) : Option Banner :=
  if eligibleBanners.isEmpty then none
  else
    let totalWeight := (eligibleBanners.map Banner.weight).sum
    if totalWeight = 0 then
      eligibleBanners.get? (⌊r * (eligibleBanners.length : ℚ)⌋).toNat
    else
      match walkWeighted eligibleBanners 0 (r * totalWeight) with
      | some b => some b
      | none => eligibleBanners.getLast?

/-- serveAd: placement eligibility, targeting filter, weighted selection. -/
def serveAd (server : AdServerModel) (r : ℚ) (request : AdRequestM) : AdResponse :=
  let eligibleBanners := getPlacementBanners server request.placementId
  if eligibleBanners.isEmpty then
    ⟨none, none, none, none, false,
     "No banners configured for placement " ++ request.placementId, 0⟩
  else
    let targetedBanners :=
      eligibleBanners.filter (fun b => (checkTargetingRules b request).1)
    if targetedBanners.isEmpty then
      ⟨none, none, none, none, false, "No banners passed targeting rules", 0⟩
    else
      match selectBannerWeighted targetedBanners r with
      | none => ⟨none, none, none, none, false, "Banner selection failed", 0⟩
      | some b =>
        ⟨some b.id, some b.advertiserId, some b.creativeUrl, some b.landingPage,
         true, "Ad served successfully", 0⟩

/-! ## The Decision Orchestrator (serveAdWithSuppression) -/

/-- The request accepted by the Falcon server. -/
structure FalconRequest where
  placementId : String
  userIdentifiers : List (String × String)
  siteId : String
  pageUrl : String
  userAgent : Option String
  ipAddress : Option String
deriving DecidableEq

/-- Property access `userIdentifiers.key` on the identifier map. -/
def getUserIdentifier (ids : List (String × String)) (k : String) : Option String :=
  (ids.find? (fun p => p.1 == k)).map (fun p => p.2)

/-- The expression `userIdentifiers.key or null`: an empty string is falsy
and becomes null. -/
def identOrNull (ids : List (String × String)) (k : String) : Option String :=
  match getUserIdentifier ids k with
  | some v => if v == "" then none else some v
  | none => none

/-- The downstream AdRequest built on the normal path, carrying the resolved
suppressed advertisers as the `suppress_advertisers` custom parameter. -/
def suppressionAdRequest (req : FalconRequest) (supp : SuppressionCheckResult) :
    AdRequestM :=
  { placementId := req.placementId
    userEmailHash := identOrNull req.userIdentifiers "email_hash"
    userDeviceId := identOrNull req.userIdentifiers "device_id"
    siteId := req.siteId
    pageUrl := req.pageUrl
    userAgent := req.userAgent
    ipAddress := req.ipAddress
    customParams :=
      [("suppress_advertisers", .arr supp.suppressedAdvertisers),
       ("suppression_check_time_ms", .num supp.processingTimeMs)] }

/-- The downstream AdRequest built on the fallback path, with an empty
`suppress_advertisers` list. -/
def fallbackAdRequest (req : FalconRequest) : AdRequestM :=
  { placementId := req.placementId
    userEmailHash := getUserIdentifier req.userIdentifiers "email_hash"
    userDeviceId := getUserIdentifier req.userIdentifiers "device_id"
    siteId := req.siteId
    pageUrl := req.pageUrl
    userAgent := req.userAgent
    ipAddress := req.ipAddress
    customParams := [("suppress_advertisers", .arr [])] }

/-- Step 4 of `serveAdWithSuppression`: when the response is served and its
advertiser is in the suppressed set, force it to not-served, clear the
banner fields, and set the explicit suppression reason. -/
def applySuppressionOverride (resp : AdResponse) (supp : List String) : AdResponse :=
  match resp.advertiserId with
  | some a =>
    if resp.served && decide (a ∈ supp) then
      { resp with served := false, bannerId := none, creativeUrl := none,
                  landingPage := none,
                  reason := "Advertiser " ++ a ++ " suppressed by Falcon" }
    else resp
  | none => resp

/-- serveAdWithSuppression: `resolve` is the outcome of the awaited
`checkUserSuppression` call (`.error` when suppression resolution throws).
On success the ad server is called with the suppression data and the
override is applied; on failure the ad is served with no suppression and an
empty result annotated with the fallback diagnostic is returned. -/
def serveAdWithSuppression (server : AdServerModel) (r : ℚ)
    (resolve : Except String SuppressionCheckResult) (req : FalconRequest) :
    AdResponse × SuppressionCheckResult :=
  match resolve with
  | .ok suppressionResult =>
    let adResponse := serveAd server r (suppressionAdRequest req suppressionResult)
    (applySuppressionOverride adResponse suppressionResult.suppressedAdvertisers,
     suppressionResult)
  | .error _ =>
    (serveAd server r (fallbackAdRequest req),
     ⟨[], 0, 0, ["Fallback mode: suppression check failed"]⟩)

/-! ## The CSV importer (suppression-list-importer.js) -/

/-- normalizeIdentifier: lowercase for `email_hash`; lowercase then strip
every character outside `[a-f0-9-]` for `device_id`. -/
def normalizeIdentifier (identifier identifierType : String) : String :=
  if identifierType == "email_hash" then lowerAscii identifier
  else if identifierType == "device_id" then
    String.mk ((identifier.data.map Char.toLower).filter isHexHyphenChar)
  else identifier

/-- deduplicateIdentifiers: keep the first identifier of each normalization
class, tracking seen normalized forms. -/
def deduplicateIdentifiers (identifiers : List String) (identifierType : String) :
    List String :=
  (identifiers.foldl (fun acc identifier =>
    let normalized := normalizeIdentifier identifier identifierType
    if acc.1.contains normalized then acc
    else (acc.1 ++ [normalized], acc.2 ++ [identifier]))
    (([], []) : List String × List String)).2

/-- The flush step of `importFromCSV` for one grouped list: `identifiers` is
`Array.from(listData.identifiers)` (a JS Set built from the rows); when
deduplication is on, `listData.identifiers` is reassigned to the deduplicated
array; the call `createList({...listData, identifiers})` then receives the
`identifiers` binding, which overrides the spread field. The first component
is the reassigned `listData.identifiers`, the second the array handed to
`createList`. -/
def importFlushIdentifiers (rawRows : List String) (identifierType : String)
    (deduplicate : Bool) : List String × List String :=
  let identifiers := jsSetFromList rawRows
  let listDataIdentifiers :=
    if deduplicate then deduplicateIdentifiers identifiers identifierType
    else identifiers
  (listDataIdentifiers, identifiers)

/-- The identifier array actually passed to `createList` by the importer. -/
def identifiersHandedToCreateList (rawRows : List String) (identifierType : String)
    (deduplicate : Bool) : List String :=
  (importFlushIdentifiers rawRows identifierType deduplicate).2

/-! ## Concrete instances used by witnesses and counterexamples -/

/-- A list of advertiser `adv_a` holding one raw-email identifier. -/
def listDataA : ListData :=
  ⟨"list_a", "adv_a", "List A", "", "email_hash", ["user@example.com"],
   "t1", "t1", "t1"⟩

/-- A list of a different advertiser `adv_b` holding the same identifier. -/
def listDataB : ListData :=
  ⟨"list_b", "adv_b", "List B", "", "email_hash", ["user@example.com"],
   "t2", "t2", "t2"⟩

/-- The store after creating `listDataA`. -/
def storeA : Store := (runCreateList noFault emptyStore listDataA).1

/-- The store after creating `listDataA` then `listDataB`. -/
def storeAB : Store := (runCreateList noFault storeA listDataB).1

/-- A fault oracle failing exactly the second identifier insert. -/
def wFaultAtOne : Nat → Bool := fun k => k == 1

/-- A two-identifier list used to exercise a mid-transaction insert failure. -/
def wListData : ListData :=
  ⟨"list_w", "adv_w", "List W", "", "email_hash",
   ["user@example.com", "other@example.com"], "t", "t", "t"⟩

/-- A banner of advertiser `adv_x` with no exclude rules at all. -/
def wOverrideBanner : Banner :=
  ⟨"banner_1", "adv_x", "camp_1", "Banner 1", "cu", "lp", 100, [], []⟩

/-- An ad server whose only placement serves only `wOverrideBanner`. -/
def wOverrideServer : AdServerModel := ⟨[("pl_1", [wOverrideBanner])]⟩

/-- A resolved suppression result naming `adv_x`. -/
def wOverrideSupp : SuppressionCheckResult := ⟨["adv_x"], 1, 0, []⟩

/-- A request for the placement served by `wOverrideBanner`. -/
def wOverrideReq : FalconRequest :=
  ⟨"pl_1", [("email_hash", "e1")], "site_1", "url_1", none, none⟩

/-- A banner with weight zero. -/
def wZeroBanner : Banner :=
  ⟨"banner_z", "adv_z", "camp_z", "Banner Z", "cu", "lp", 0, [], []⟩

/-- A lookup oracle that throws for `device_id` and succeeds for other types. -/
def wLookup : String → String → Except String LookupOutcome := fun _ t =>
  if t == "device_id" then .error "boom" else .ok ⟨["adv_q"], 1, []⟩

/-- A request identifier map carrying both identifier types. -/
def wIds : List (String × String) := [("device_id", "dev1"), ("email_hash", "em1")]

/-- A cached entry with a non-empty suppressed array. -/
def wHitEntry : CacheEntry := ⟨["adv_h"], 2, ["d1"], 0⟩

/-- A server state whose cache already holds the key `email_hash:e1`. -/
def wHitState : ServerState := ⟨[("email_hash:e1", wHitEntry)], 0, 0, 0, 0⟩

/-- The identifier map whose canonical key is `email_hash:e1`. -/
def wHitIds : List (String × String) := [("email_hash", "e1")]

/-! ## Helper lemmas: JS sets -/

theorem mem_jsSetAdd_of_mem {s : List String} {a : String} (b : String) (h : a ∈ s) :
    a ∈ jsSetAdd s b := by
  unfold jsSetAdd
  split
  · exact h
  · exact List.mem_append_left _ h

theorem mem_jsSetAdd_self (s : List String) (a : String) : a ∈ jsSetAdd s a := by
  unfold jsSetAdd
  split
  · assumption
  · exact List.mem_append_right _ (List.mem_singleton.mpr rfl)

theorem mem_foldl_jsSetAdd_of_mem :
    ∀ (l : List String) (s : List String) (a : String), a ∈ s → a ∈ l.foldl jsSetAdd s
  | [], _, _, h => h
  | b :: l, s, a, h => mem_foldl_jsSetAdd_of_mem l (jsSetAdd s b) a (mem_jsSetAdd_of_mem b h)

theorem mem_foldl_jsSetAdd_of_mem_list :
    ∀ (l : List String) (s : List String) (a : String), a ∈ l → a ∈ l.foldl jsSetAdd s
  | b :: l, s, a, h => by
    rcases List.mem_cons.mp h with rfl | h
    · exact mem_foldl_jsSetAdd_of_mem l _ a (mem_jsSetAdd_self s a)
    · exact mem_foldl_jsSetAdd_of_mem_list l _ a h

/-! ## Helper lemmas: lexicographic string order -/

theorem charListLe_total : ∀ a b : List Char, charListLe a b = true ∨ charListLe b a = true
  | [], _ => Or.inl rfl
  | _ :: _, [] => Or.inr rfl
  | x :: xs, y :: ys => by
    by_cases h : x = y
    · subst h
      rcases charListLe_total xs ys with h1 | h1
      · exact Or.inl (by simpa [charListLe] using h1)
      · exact Or.inr (by simpa [charListLe] using h1)
    · rcases lt_or_gt_of_ne h with hlt | hgt
      · exact Or.inl (by simp [charListLe, h, hlt])
      · exact Or.inr (by simp [charListLe, Ne.symm h, hgt])

theorem charListLe_trans :
    ∀ a b c : List Char, charListLe a b = true → charListLe b c = true →
      charListLe a c = true
  | [], _, _, _, _ => rfl
  | _ :: _, [], _, hab, _ => by simp [charListLe] at hab
  | _ :: _, _ :: _, [], _, hbc => by simp [charListLe] at hbc
  | x :: xs, y :: ys, z :: zs, hab, hbc => by
    by_cases hxy : x = y
    · subst hxy
      by_cases hyz : x = z
      · subst hyz
        simp only [charListLe, if_pos rfl] at hab hbc ⊢
        exact charListLe_trans xs ys zs hab hbc
      · simp only [charListLe, if_pos rfl] at hab
        simpa [charListLe, hyz] using hbc
    · have hxyl : x < y := by
        by_contra hcon
        simp [charListLe, hxy, hcon] at hab
      by_cases hyz : y = z
      · subst hyz
        simp [charListLe, hxy, hxyl]
      · have hyzl : y < z := by
          by_contra hcon
          simp [charListLe, hyz, hcon] at hbc
        have hxz : x < z := lt_trans hxyl hyzl
        simp [charListLe, ne_of_lt hxz, hxz]

theorem charListLe_antisymm :
    ∀ a b : List Char, charListLe a b = true → charListLe b a = true → a = b
  | [], [], _, _ => rfl
  | [], _ :: _, _, hba => by simp [charListLe] at hba
  | _ :: _, [], hab, _ => by simp [charListLe] at hab
  | x :: xs, y :: ys, hab, hba => by
    by_cases hxy : x = y
    · subst hxy
      simp only [charListLe, if_pos rfl] at hab hba
      rw [charListLe_antisymm xs ys hab hba]
    · have hxyl : x < y := by
        by_contra hcon
        simp [charListLe, hxy, hcon] at hab
      have hyxl : y < x := by
        by_contra hcon
        simp [charListLe, Ne.symm hxy, hcon] at hba
      exact absurd hxyl (asymm hyxl)

theorem string_data_inj {a b : String} (h : a.data = b.data) : a = b := by
  cases a
  cases b
  exact congrArg String.mk h

instance : IsTotal (String × String) keyLe :=
  ⟨fun a b => charListLe_total a.1.data b.1.data⟩

instance : IsTrans (String × String) keyLe :=
  ⟨fun a b c hab hbc => charListLe_trans a.1.data b.1.data c.1.data hab hbc⟩

/-- The strict version of the cache-key comparator, used to show that sorting
a key-distinct list of identifier pairs has a unique result. -/
def keyLt (a b : String × String) : Prop :=
  keyLe a b ∧ a.1 ≠ b.1

instance : IsAntisymm (String × String) keyLt :=
  ⟨fun a b h1 h2 =>
    absurd (string_data_inj (charListLe_antisymm a.1.data b.1.data h1.1 h2.1)) h1.2⟩

theorem pairwise_and {α : Type} {R S : α → α → Prop} :
    ∀ {l : List α}, l.Pairwise R → l.Pairwise S →
      l.Pairwise (fun a b => R a b ∧ S a b)
  | [], _, _ => .nil
  | _ :: _, .cons hR hRs, .cons hS hSs =>
    .cons (fun y hy => ⟨hR y hy, hS y hy⟩) (pairwise_and hRs hSs)

/-! ## Helper lemmas: cache structure -/

theorem mem_cacheSet {c : List (String × CacheEntry)} {k : String} {e : CacheEntry} :
    ∀ p ∈ cacheSet c k e, p ∈ c ∨ p.2 = e := by
  intro p hp
  unfold cacheSet at hp
  split at hp
  · rcases List.mem_map.mp hp with ⟨q, hq, hqe⟩
    by_cases hk : q.1 == k
    · right
      rw [if_pos hk] at hqe
      rw [← hqe]
    · left
      rw [if_neg hk] at hqe
      exact hqe ▸ hq
  · rcases List.mem_append.mp hp with h | h
    · exact Or.inl h
    · exact Or.inr (by rw [List.mem_singleton.mp h])

/-! ## Helper lemmas: weighted selection -/

theorem walkWeighted_mem :
    ∀ (l : List Banner) (c t : ℚ) (b : Banner), walkWeighted l c t = some b → b ∈ l
  | [], _, _, _, h => by simp [walkWeighted] at h
  | x :: xs, c, t, b, h => by
    by_cases hc : t ≤ c + x.weight
    · simp only [walkWeighted, if_pos hc, Option.some.injEq] at h
      exact h ▸ List.mem_cons_self x xs
    · simp only [walkWeighted, if_neg hc] at h
      exact List.mem_cons_of_mem x (walkWeighted_mem xs _ t b h)

/-! ## Helper lemmas: identifier insert loop -/

theorem insertIdentifierRows_sub (fault : Nat → Bool) (t lid aid : String) :
    ∀ (ids : List String) (k : Nat) (rows rows' : List IdentRow),
      insertIdentifierRows fault t lid aid ids k rows = .ok rows' →
      ∀ x ∈ rows, x ∈ rows' := by
  intro ids
  induction ids with
  | nil =>
    intro k rows rows' h x hx
    simp only [insertIdentifierRows, Except.ok.injEq] at h
    exact h ▸ hx
  | cons i rest ih =>
    intro k rows rows' h x hx
    simp only [insertIdentifierRows] at h
    split at h
    · cases h
    · split at h
      · exact ih (k + 1) rows rows' h x hx
      · exact ih (k + 1) _ rows' h x (List.mem_append_left _ hx)

theorem insertIdentifierRows_complete (fault : Nat → Bool) (t lid aid : String) :
    ∀ (ids : List String) (k : Nat) (rows rows' : List IdentRow),
      insertIdentifierRows fault t lid aid ids k rows = .ok rows' →
      ∀ i ∈ ids, ∃ x ∈ rows', x.identifier_hash = hashIdentifier i := by
  intro ids
  induction ids with
  | nil =>
    intro k rows rows' _ i hi
    simp at hi
  | cons j rest ih =>
    intro k rows rows' h i hi
    simp only [insertIdentifierRows] at h
    split at h
    · cases h
    · rcases List.mem_cons.mp hi with rfl | hrest
      · split at h
        · rename_i hany
          rcases List.any_eq_true.mp hany with ⟨x, hx, hxh⟩
          exact ⟨x, insertIdentifierRows_sub fault t lid aid rest (k + 1) _ rows' h x hx,
            by simpa using hxh⟩
        · refine ⟨⟨hashIdentifier i, i, t, lid, aid⟩, ?_, rfl⟩
          exact insertIdentifierRows_sub fault t lid aid rest (k + 1) _ rows' h _
            (List.mem_append_right _ (List.mem_singleton.mpr rfl))
      · split at h
        · exact ih (k + 1) rows rows' h i hrest
        · exact ih (k + 1) _ rows' h i hrest

/-! ## Helper lemmas: the resolver loop -/

theorem checkLoop_details_mono (lookup : String → String → Except String LookupOutcome) :
    ∀ (entries : List (String × String)) (supp details : List String) (checked : Nat)
      (d : String), d ∈ details →
      d ∈ (checkLoop lookup entries supp details checked).2.1 := by
  intro entries
  induction entries with
  | nil =>
    intro supp details checked d hd
    exact hd
  | cons hd tl ih =>
    intro supp details checked d hdm
    obtain ⟨t, v⟩ := hd
    simp only [checkLoop]
    split
    · exact ih supp details checked d hdm
    · split
      · split
        · exact ih _ _ _ d (List.mem_append_left _ hdm)
        · exact ih supp details _ d hdm
      · exact ih supp _ checked d (List.mem_append_left _ hdm)

theorem checkLoop_supp_mono (lookup : String → String → Except String LookupOutcome) :
    ∀ (entries : List (String × String)) (supp details : List String) (checked : Nat)
      (a : String), a ∈ supp →
      a ∈ (checkLoop lookup entries supp details checked).1 := by
  intro entries
  induction entries with
  | nil =>
    intro supp details checked a ha
    exact ha
  | cons hd tl ih =>
    intro supp details checked a ha
    obtain ⟨t, v⟩ := hd
    simp only [checkLoop]
    split
    · exact ih supp details checked a ha
    · split
      · split
        · exact ih _ _ _ a (mem_foldl_jsSetAdd_of_mem _ supp a ha)
        · exact ih supp details _ a ha
      · exact ih supp _ checked a ha

theorem checkLoop_error_detail (lookup : String → String → Except String LookupOutcome) :
    ∀ (entries : List (String × String)) (supp details : List String) (checked : Nat)
      (t v msg : String), (t, v) ∈ entries → v ≠ "" → lookup v t = .error msg →
      ("Error checking " ++ t ++ ": " ++ msg)
        ∈ (checkLoop lookup entries supp details checked).2.1 := by
  intro entries
  induction entries with
  | nil =>
    intro supp details checked t v msg hmem _ _
    simp at hmem
  | cons hd tl ih =>
    intro supp details checked t v msg hmem hv hlook
    obtain ⟨t', v'⟩ := hd
    rcases List.mem_cons.mp hmem with heq | htl
    · injection heq with h1 h2
      subst h1
      subst h2
      simp only [checkLoop]
      rw [if_neg (by simpa using hv)]
      split
      · rename_i adv heq
        rw [hlook] at heq
        cases heq
      · rename_i msg' heq
        rw [hlook] at heq
        injection heq with hmsg
        subst hmsg
        exact checkLoop_details_mono lookup tl supp _ checked _
          (List.mem_append_right _ (List.mem_singleton.mpr rfl))
    · simp only [checkLoop]
      split
      · exact ih supp details checked t v msg htl hv hlook
      · split
        · split
          · exact ih _ _ _ t v msg htl hv hlook
          · exact ih supp details _ t v msg htl hv hlook
        · exact ih supp _ checked t v msg htl hv hlook

theorem checkLoop_ok_union (lookup : String → String → Except String LookupOutcome) :
    ∀ (entries : List (String × String)) (supp details : List String) (checked : Nat)
      (t v : String) (out : LookupOutcome) (a : String),
      (t, v) ∈ entries → v ≠ "" → lookup v t = .ok out → a ∈ out.suppressed →
      a ∈ (checkLoop lookup entries supp details checked).1 := by
  intro entries
  induction entries with
  | nil =>
    intro supp details checked t v out a hmem _ _ _
    simp at hmem
  | cons hd tl ih =>
    intro supp details checked t v out a hmem hv hlook ha
    obtain ⟨t', v'⟩ := hd
    rcases List.mem_cons.mp hmem with heq | htl
    · injection heq with h1 h2
      subst h1
      subst h2
      simp only [checkLoop]
      rw [if_neg (by simpa using hv)]
      split
      · rename_i adv heq
        rw [hlook] at heq
        injection heq with hadv
        subst hadv
        rw [if_pos (List.length_pos.mpr (List.ne_nil_of_mem ha))]
        exact checkLoop_supp_mono lookup tl _ _ _ a
          (mem_foldl_jsSetAdd_of_mem_list _ supp a ha)
      · rename_i msg' heq
        rw [hlook] at heq
        cases heq
    · simp only [checkLoop]
      split
      · exact ih supp details checked t v out a htl hv hlook ha
      · split
        · split
          · exact ih _ _ _ t v out a htl hv hlook ha
          · exact ih supp details _ t v out a htl hv hlook ha
        · exact ih supp _ checked t v out a htl hv hlook ha

/-! ## Helper lemmas: selectBannerWeighted branch reductions -/

theorem selectBannerWeighted_zero (banners : List Banner) (r : ℚ) (hne : banners ≠ [])
    (htot : (banners.map Banner.weight).sum = 0) :
    selectBannerWeighted banners r =
      banners.get? (⌊r * (banners.length : ℚ)⌋).toNat := by
  have hempty : ¬(banners.isEmpty = true) := by simp [hne]
  simp only [selectBannerWeighted]
  rw [if_neg hempty, if_pos htot]

theorem selectBannerWeighted_walkEq (banners : List Banner) (r : ℚ) (hne : banners ≠ [])
    (htot : (banners.map Banner.weight).sum ≠ 0) :
    selectBannerWeighted banners r =
      match walkWeighted banners 0 (r * (banners.map Banner.weight).sum) with
      | some b => some b
      | none => banners.getLast? := by
  have hempty : ¬(banners.isEmpty = true) := by simp [hne]
  simp only [selectBannerWeighted]
  rw [if_neg hempty, if_neg htot]

/-! ## Claim theorems -/

/-- C5: when the suppression-resolution step of `serveAdWithSuppression`
throws, the call does not fail: the ad server is still invoked with an empty
`suppress_advertisers` list, the returned suppression result has an empty
suppressed set, zero lists checked and the fallback-mode diagnostic, and the
response is the raw ad-server response with no suppression override. -/
theorem serveAdWithSuppression_fallback (server : AdServerModel) (r : ℚ)
    (req : FalconRequest) (msg : String) :
    serveAdWithSuppression server r (.error msg) req =
      (serveAd server r
        { placementId := req.placementId
          userEmailHash := getUserIdentifier req.userIdentifiers "email_hash"
          userDeviceId := getUserIdentifier req.userIdentifiers "device_id"
          siteId := req.siteId
          pageUrl := req.pageUrl
          userAgent := req.userAgent
          ipAddress := req.ipAddress
          customParams := [("suppress_advertisers", ParamValue.arr [])] },
       { suppressedAdvertisers := []
         totalListsChecked := 0
         processingTimeMs := 0
         details := ["Fallback mode: suppression check failed"] }) := rfl

/-- C9: with deduplication enabled, `importFromCSV` still hands `createList`
both of two identifiers that differ only in casing: the deduplicated array is
computed (third and fourth conjuncts) but the object-spread override passes
the pre-deduplication array on (first conjunct), although the two identifiers
share one normalization class (second conjunct). -/
theorem importFromCSV_discards_deduplication :
    identifiersHandedToCreateList ["ABC-123", "abc-123"] "device_id" true
      = ["ABC-123", "abc-123"]
    ∧ normalizeIdentifier "ABC-123" "device_id"
        = normalizeIdentifier "abc-123" "device_id"
    ∧ deduplicateIdentifiers ["ABC-123", "abc-123"] "device_id" = ["ABC-123"]
    ∧ (importFlushIdentifiers ["ABC-123", "abc-123"] "device_id" true).1
        = ["ABC-123"] := by
  decide

/-- C3: the identifier-hash primary key drops a second advertiser's row for
an identifier that is already suppressed by another advertiser. Both
`createList` calls succeed and both lists are active, yet the lookup for the
shared identifier returns only the first advertiser: `adv_b` is missing. -/
theorem findAdvertisersForIdentifier_loses_second_advertiser :
    (runCreateList noFault emptyStore listDataA).2 = none
    ∧ (runCreateList noFault storeA listDataB).2 = none
    ∧ storeAB.lists.map (fun l => (l.id, l.advertiser_id, l.is_active))
        = [("list_a", "adv_a", true), ("list_b", "adv_b", true)]
    ∧ (findAdvertisersForIdentifier storeAB "user@example.com" "email_hash").suppressed
        = ["adv_a"]
    ∧ "adv_b" ∉
        (findAdvertisersForIdentifier storeAB "user@example.com" "email_hash").suppressed := by
  decide

/-- C8: `generateCacheKey` is order-insensitive: two enumerations of the same
identifier map (same pairs, keys pairwise distinct as in a JS object) yield
the identical canonical key string. -/
theorem generateCacheKey_perm (l1 l2 : List (String × String))
    (hperm : l1.Perm l2) (hkeys : l1.Pairwise (fun a b => a.1 ≠ b.1)) :
    generateCacheKey l1 = generateCacheKey l2 := by
  have hf : (l1.filter (fun p => !(p.2 == ""))).Perm
      (l2.filter (fun p => !(p.2 == ""))) := hperm.filter _
  have hk1 : (l1.filter (fun p => !(p.2 == ""))).Pairwise (fun a b => a.1 ≠ b.1) :=
    hkeys.filter _
  have hs1 := List.sorted_insertionSort keyLe (l1.filter (fun p => !(p.2 == "")))
  have hs2 := List.sorted_insertionSort keyLe (l2.filter (fun p => !(p.2 == "")))
  have hp1 := List.perm_insertionSort keyLe (l1.filter (fun p => !(p.2 == "")))
  have hp2 := List.perm_insertionSort keyLe (l2.filter (fun p => !(p.2 == "")))
  have hn1 : ((l1.filter (fun p => !(p.2 == ""))).insertionSort keyLe).Pairwise
      (fun a b => a.1 ≠ b.1) :=
    (List.Perm.pairwise_iff (fun h => Ne.symm h) hp1).mpr hk1
  have hk2 : (l2.filter (fun p => !(p.2 == ""))).Pairwise (fun a b => a.1 ≠ b.1) :=
    (List.Perm.pairwise_iff (fun h => Ne.symm h) hf).mp hk1
  have hn2 : ((l2.filter (fun p => !(p.2 == ""))).insertionSort keyLe).Pairwise
      (fun a b => a.1 ≠ b.1) :=
    (List.Perm.pairwise_iff (fun h => Ne.symm h) hp2).mpr hk2
  have hlt1 : ((l1.filter (fun p => !(p.2 == ""))).insertionSort keyLe).Pairwise keyLt :=
    pairwise_and hs1 hn1
  have hlt2 : ((l2.filter (fun p => !(p.2 == ""))).insertionSort keyLe).Pairwise keyLt :=
    pairwise_and hs2 hn2
  have heq : (l1.filter (fun p => !(p.2 == ""))).insertionSort keyLe
      = (l2.filter (fun p => !(p.2 == ""))).insertionSort keyLe :=
    List.eq_of_perm_of_sorted (hp1.trans (hf.trans hp2.symm)) hlt1 hlt2
  simp only [generateCacheKey]
  rw [heq]

/-- C8 witness: the two enumeration orders of the example identifier map from
the specification produce the identical cache key. -/
theorem generateCacheKey_perm_witness :
    generateCacheKey [("device_id", "d"), ("email_hash", "e")]
      = generateCacheKey [("email_hash", "e"), ("device_id", "d")] :=
  generateCacheKey_perm _ _ (by decide) (by decide)

/-- C7: for a non-empty survivor pool, `selectBannerWeighted` always returns
a member of the pool; with zero total weight it picks uniformly, selecting
index `i` exactly when the draw falls in the i-th of `length` equal
subintervals; and whenever the accumulation walk undershoots the target, the
last banner is returned. -/
theorem selectBannerWeighted_spec (banners : List Banner) (r : ℚ)
    (hne : banners ≠ []) :
    (0 ≤ r → r < 1 → ∃ b, b ∈ banners ∧ selectBannerWeighted banners r = some b)
    ∧ ((banners.map Banner.weight).sum = 0 →
        ∀ i : ℕ, (i : ℚ) ≤ r * (banners.length : ℚ) →
          r * (banners.length : ℚ) < (i : ℚ) + 1 →
          selectBannerWeighted banners r = banners.get? i)
    ∧ ((banners.map Banner.weight).sum ≠ 0 →
        walkWeighted banners 0 (r * (banners.map Banner.weight).sum) = none →
        selectBannerWeighted banners r = banners.getLast?) := by
  refine ⟨?_, ?_, ?_⟩
  · intro hr0 hr1
    by_cases htot : (banners.map Banner.weight).sum = 0
    · have hlen : 0 < banners.length := List.length_pos.mpr hne
      have hlenQ : (0 : ℚ) < (banners.length : ℚ) := by exact_mod_cast hlen
      have h1 : (0 : ℚ) ≤ r * (banners.length : ℚ) :=
        mul_nonneg hr0 (le_of_lt hlenQ)
      have h2 : r * (banners.length : ℚ) < (banners.length : ℚ) := by
        calc r * (banners.length : ℚ) < 1 * (banners.length : ℚ) :=
              mul_lt_mul_of_pos_right hr1 hlenQ
          _ = (banners.length : ℚ) := one_mul _
      have hfl0 : 0 ≤ ⌊r * (banners.length : ℚ)⌋ := Int.floor_nonneg.mpr h1
      have hflt : ⌊r * (banners.length : ℚ)⌋ < (banners.length : ℤ) :=
        Int.floor_lt.mpr (by exact_mod_cast h2)
      have hidx : (⌊r * (banners.length : ℚ)⌋).toNat < banners.length :=
        (Int.toNat_lt hfl0).mpr hflt
      refine ⟨banners.get ⟨_, hidx⟩, List.get_mem _ _ _, ?_⟩
      rw [selectBannerWeighted_zero banners r hne htot]
      exact List.get?_eq_get hidx
    · cases hw : walkWeighted banners 0 (r * (banners.map Banner.weight).sum) with
      | some b =>
        refine ⟨b, walkWeighted_mem _ _ _ _ hw, ?_⟩
        rw [selectBannerWeighted_walkEq banners r hne htot, hw]
      | none =>
        refine ⟨banners.getLast hne, List.getLast_mem hne, ?_⟩
        rw [selectBannerWeighted_walkEq banners r hne htot, hw]
        exact List.getLast?_eq_getLast banners hne
  · intro htot i hi1 hi2
    rw [selectBannerWeighted_zero banners r hne htot]
    have hfl : ⌊r * (banners.length : ℚ)⌋ = (i : ℤ) :=
      Int.floor_eq_iff.mpr ⟨by exact_mod_cast hi1, by push_cast; exact hi2⟩
    rw [hfl]
    simp
  · intro htot hw
    rw [selectBannerWeighted_walkEq banners r hne htot, hw]

/-- C7 witness: applied to a one-banner pool of weight zero with draw 0, the
membership part yields a selected member of the pool. -/
theorem selectBannerWeighted_spec_witness :
    ∃ b, b ∈ [wZeroBanner] ∧ selectBannerWeighted [wZeroBanner] 0 = some b :=
  (selectBannerWeighted_spec [wZeroBanner] 0 (by simp)).1 (by norm_num) (by norm_num)

/-- C4: during `checkUserSuppression`, a throwing lookup for one identifier
type is caught: a diagnostic line naming that identifier type is appended to
the details, and every other identifier type is still looked up with its
advertisers unioned into the returned suppressed set. -/
theorem checkUserSuppression_partial_failure (cacheEnabled : Bool)
    (lookup : String → String → Except String LookupOutcome) (now : Nat)
    (st : ServerState) (ids : List (String × String)) (t v msg : String)
    (hmiss : lookupCache st.cache (generateCacheKey ids) = none)
    (hmem : (t, v) ∈ ids) (hv : v ≠ "") (herr : lookup v t = .error msg) :
    ("Error checking " ++ t ++ ": " ++ msg)
      ∈ (checkUserSuppression cacheEnabled lookup now st ids).1.details
    ∧ ∀ (t' v' : String) (out : LookupOutcome) (a : String),
        (t', v') ∈ ids → v' ≠ "" → lookup v' t' = .ok out → a ∈ out.suppressed →
        a ∈ (checkUserSuppression cacheEnabled lookup now st ids).1.suppressedAdvertisers := by
  have hred : checkUserSuppression cacheEnabled lookup now st ids
      = checkMiss cacheEnabled lookup now st ids (generateCacheKey ids) := by
    cases cacheEnabled
    · simp [checkUserSuppression]
    · simp [checkUserSuppression, hmiss]
  rw [hred]
  constructor
  · exact checkLoop_error_detail lookup ids [] [] 0 t v msg hmem hv herr
  · intro t' v' out a hmem' hv' hok ha
    exact checkLoop_ok_union lookup ids [] [] 0 t' v' out a hmem' hv' hok ha

/-- C4 witness: with a lookup oracle that throws for `device_id` and matches
`adv_q` for `email_hash`, the returned details name the `device_id` failure
and the merged set still contains `adv_q`. -/
theorem checkUserSuppression_partial_failure_witness :
    ("Error checking device_id: boom")
      ∈ (checkUserSuppression true wLookup 0 freshServerState wIds).1.details
    ∧ "adv_q" ∈
        (checkUserSuppression true wLookup 0 freshServerState wIds).1.suppressedAdvertisers := by
  have h := checkUserSuppression_partial_failure true wLookup 0 freshServerState wIds
    "device_id" "dev1" "boom" (by decide) (by decide) (by decide) rfl
  exact ⟨h.1, h.2 "email_hash" "em1" ⟨["adv_q"], 1, []⟩ "adv_q"
    (by decide) (by decide) rfl (by decide)⟩

/-- The cache-write step preserves the cache-content invariant. -/
theorem missCache_nonempty (cacheEnabled : Bool) (now : Nat)
    (cache : List (String × CacheEntry)) (cacheKey : String)
    (supp details : List String) (listsChecked : Nat)
    (hinv : cacheNonempty cache) :
    cacheNonempty (missCache cacheEnabled now cache cacheKey supp details listsChecked) := by
  intro p hp
  simp only [missCache] at hp
  split at hp
  · rename_i hguard
    have hsupp : supp ≠ [] := by
      simp only [Bool.and_eq_true, decide_eq_true_eq] at hguard
      exact List.length_pos.mp hguard.2
    split at hp
    · rcases mem_cacheSet p (List.mem_of_mem_filter hp) with hin | he
      · exact hinv p hin
      · rw [he]
        exact hsupp
    · rcases mem_cacheSet p hp with hin | he
      · exact hinv p hin
      · rw [he]
        exact hsupp
  · exact hinv p hp

/-- C6: every `checkUserSuppression` call preserves the invariant that each
cache entry has a non-empty suppressed-advertiser collection, so a
not-suppressed result is never written to the cache. -/
theorem checkUserSuppression_cache_nonempty (cacheEnabled : Bool)
    (lookup : String → String → Except String LookupOutcome) (now : Nat)
    (st : ServerState) (ids : List (String × String))
    (hinv : cacheNonempty st.cache) :
    cacheNonempty (checkUserSuppression cacheEnabled lookup now st ids).2.cache := by
  have hmiss : ∀ ce, cacheNonempty (checkMiss ce lookup now st ids (generateCacheKey ids)).2.cache := by
    intro ce
    exact missCache_nonempty ce now st.cache (generateCacheKey ids) _ _ _ hinv
  simp only [checkUserSuppression]
  cases cacheEnabled with
  | false => exact hmiss false
  | true =>
    rw [if_pos rfl]
    split
    · exact hinv
    · exact hmiss true

/-- C6 witness: starting from the constructor state with its empty cache, the
invariant holds after a call that records a suppression match. -/
theorem checkUserSuppression_cache_nonempty_witness :
    cacheNonempty (checkUserSuppression true wLookup 0 freshServerState wIds).2.cache :=
  checkUserSuppression_cache_nonempty true wLookup 0 freshServerState wIds
    (by intro p hp; simp [freshServerState] at hp)

/-- C10: on a cache hit, `checkUserSuppression` leaves the cache unchanged,
returns a suppressed set rebuilt from the cached array, and a second hit for
the same identifier map returns an equal suppressed set. -/
theorem checkUserSuppression_cache_hit
    (lookup : String → String → Except String LookupOutcome) (now : Nat)
    (st : ServerState) (ids : List (String × String)) (entry : CacheEntry)
    (hhit : lookupCache st.cache (generateCacheKey ids) = some entry) :
    (checkUserSuppression true lookup now st ids).2.cache = st.cache
    ∧ (checkUserSuppression true lookup now st ids).1.suppressedAdvertisers
        = jsSetFromList entry.suppressedAdvertisers
    ∧ (checkUserSuppression true lookup now
        (checkUserSuppression true lookup now st ids).2 ids).1.suppressedAdvertisers
        = (checkUserSuppression true lookup now st ids).1.suppressedAdvertisers := by
  have h1 : checkUserSuppression true lookup now st ids
      = (⟨jsSetFromList entry.suppressedAdvertisers, entry.listsChecked, 0,
          "Result served from cache" :: entry.details⟩,
         { st with cacheHits := st.cacheHits + 1 }) := by
    simp [checkUserSuppression, hhit]
  rw [h1]
  refine ⟨rfl, rfl, ?_⟩
  have h2 : lookupCache ({ st with cacheHits := st.cacheHits + 1 } : ServerState).cache
      (generateCacheKey ids) = some entry := hhit
  simp [checkUserSuppression, h2]

/-- C10 witness: a concrete cache hit leaves the cache unchanged, rebuilds
the suppressed set from the cached array, and repeats identically. -/
theorem checkUserSuppression_cache_hit_witness :
    (checkUserSuppression true wLookup 0 wHitState wHitIds).2.cache = wHitState.cache
    ∧ (checkUserSuppression true wLookup 0 wHitState wHitIds).1.suppressedAdvertisers
        = jsSetFromList wHitEntry.suppressedAdvertisers
    ∧ (checkUserSuppression true wLookup 0
        (checkUserSuppression true wLookup 0 wHitState wHitIds).2 wHitIds).1.suppressedAdvertisers
        = (checkUserSuppression true wLookup 0 wHitState wHitIds).1.suppressedAdvertisers :=
  checkUserSuppression_cache_hit wLookup 0 wHitState wHitIds wHitEntry (by decide)

/-- The override step rewrites a served response whose advertiser is in the
suppressed set. -/
theorem applySuppressionOverride_fires (resp : AdResponse) (supp : List String)
    (a : String) (hserved : resp.served = true) (hadv : resp.advertiserId = some a)
    (hmem : a ∈ supp) :
    applySuppressionOverride resp supp =
      { resp with served := false, bannerId := none, creativeUrl := none,
                  landingPage := none,
                  reason := "Advertiser " ++ a ++ " suppressed by Falcon" } := by
  simp [applySuppressionOverride, hadv, hserved, hmem]

/-- C1: whenever the ad server returns a served response whose advertiser is
in the resolved suppressed set, `serveAdWithSuppression` forces the final
response to not served, clears bannerId, creativeUrl and landingPage, and
sets a reason naming the suppressed advertiser - for every server
configuration, hence also when the selected banner has no
`suppress_advertisers` exclude rule. -/
theorem serveAdWithSuppression_override (server : AdServerModel) (r : ℚ)
    (supp : SuppressionCheckResult) (req : FalconRequest) (a : String)
    (hserved : (serveAd server r (suppressionAdRequest req supp)).served = true)
    (hadv : (serveAd server r (suppressionAdRequest req supp)).advertiserId = some a)
    (hmem : a ∈ supp.suppressedAdvertisers) :
    (serveAdWithSuppression server r (.ok supp) req).1.served = false
    ∧ (serveAdWithSuppression server r (.ok supp) req).1.bannerId = none
    ∧ (serveAdWithSuppression server r (.ok supp) req).1.creativeUrl = none
    ∧ (serveAdWithSuppression server r (.ok supp) req).1.landingPage = none
    ∧ (serveAdWithSuppression server r (.ok supp) req).1.reason
        = "Advertiser " ++ a ++ " suppressed by Falcon" := by
  have h1 : (serveAdWithSuppression server r (.ok supp) req).1
      = applySuppressionOverride (serveAd server r (suppressionAdRequest req supp))
          supp.suppressedAdvertisers := rfl
  rw [h1, applySuppressionOverride_fires _ _ a hserved hadv hmem]
  exact ⟨rfl, rfl, rfl, rfl, rfl⟩

/-- Evaluation of the ad server on the witness configuration: the weighted
selection naturally serves the banner of advertiser `adv_x`. -/
theorem wOverride_serveAd_eval :
    serveAd wOverrideServer 0 (suppressionAdRequest wOverrideReq wOverrideSupp)
      = ⟨some "banner_1", some "adv_x", some "cu", some "lp", true,
         "Ad served successfully", 0⟩ := by
  norm_num [serveAd, getPlacementBanners, wOverrideServer, wOverrideBanner,
    wOverrideReq, wOverrideSupp, suppressionAdRequest, checkTargetingRules,
    checkInclude, checkExclude, selectBannerWeighted, walkWeighted,
    identOrNull, getUserIdentifier]

/-- C1 witness: on a pool whose selected banner belongs to the suppressed
advertiser `adv_x` and carries no exclude rules, the final decision is not
served with the suppression reason. -/
theorem serveAdWithSuppression_override_witness :
    (serveAdWithSuppression wOverrideServer 0 (.ok wOverrideSupp) wOverrideReq).1.served
      = false
    ∧ (serveAdWithSuppression wOverrideServer 0 (.ok wOverrideSupp) wOverrideReq).1.reason
        = "Advertiser adv_x suppressed by Falcon" := by
  have h := serveAdWithSuppression_override wOverrideServer 0 wOverrideSupp wOverrideReq
    "adv_x" (by rw [wOverride_serveAd_eval]) (by rw [wOverride_serveAd_eval])
    (by decide)
  exact ⟨h.1, h.2.2.2.2⟩

/-- The success shape of `createList`: the committed store appends exactly
the new metadata row and the rows produced by the identifier insert loop. -/
theorem createList_ok_shape (fault : Nat → Bool) (store : Store) (d : ListData)
    (s : Store) (h : createList fault store d = .ok s) :
    ∃ rows, insertIdentifierRows fault d.identifier_type d.id d.advertiser_id
        d.identifiers 0 store.identifiers = .ok rows
      ∧ s = { lists := store.lists ++
                [⟨d.id, d.advertiser_id, d.name, d.description, d.identifier_type,
                  d.created_at, d.submitted_at, d.last_updated,
                  d.identifiers.length, true⟩],
              identifiers := rows } := by
  unfold createList at h
  split at h
  · exact Except.noConfusion h
  · split at h
    · exact Except.noConfusion h
    · split at h
      · exact Except.noConfusion h
      · split at h
        · exact Except.noConfusion h
        · rename_i rows hrows
          injection h with hs
          exact ⟨rows, hrows, hs.symm⟩

/-- C2: `createList` is atomic. If validation or any insert fails, the
transaction is rolled back: the resulting store is the original one and, for
a fresh list id, holds no metadata row and no identifier rows for that id.
On success the metadata row is committed together with every identifier
insert. -/
theorem createList_atomic (fault : Nat → Bool) (store : Store) (d : ListData)
    (hfreshl : ∀ l ∈ store.lists, l.id ≠ d.id)
    (hfreshi : ∀ x ∈ store.identifiers, x.list_id ≠ d.id) :
    ((runCreateList fault store d).2.isSome = true →
       (runCreateList fault store d).1 = store
       ∧ (∀ l ∈ (runCreateList fault store d).1.lists, l.id ≠ d.id)
       ∧ (∀ x ∈ (runCreateList fault store d).1.identifiers, x.list_id ≠ d.id))
    ∧ ((runCreateList fault store d).2 = none →
       (∃ l ∈ (runCreateList fault store d).1.lists,
          l.id = d.id ∧ l.advertiser_id = d.advertiser_id ∧ l.is_active = true
          ∧ l.size = d.identifiers.length)
       ∧ ∀ i ∈ d.identifiers,
           ∃ x ∈ (runCreateList fault store d).1.identifiers,
             x.identifier_hash = hashIdentifier i) := by
  cases h : createList fault store d with
  | error e =>
    have hrun : runCreateList fault store d = (store, some e) := by
      simp [runCreateList, h]
    rw [hrun]
    constructor
    · intro _
      exact ⟨rfl, hfreshl, hfreshi⟩
    · intro hcon
      simp at hcon
  | ok s =>
    have hrun : runCreateList fault store d = (s, none) := by
      simp [runCreateList, h]
    rw [hrun]
    obtain ⟨rows, hrows, hs⟩ := createList_ok_shape fault store d s h
    constructor
    · intro hcon
      simp at hcon
    · intro _
      subst hs
      constructor
      · exact ⟨_, List.mem_append_right _ (List.mem_singleton.mpr rfl),
          rfl, rfl, rfl, rfl⟩
      · intro i hi
        exact insertIdentifierRows_complete fault d.identifier_type d.id
          d.advertiser_id d.identifiers 0 store.identifiers rows hrows i hi

/-- C2 witness: failing the second identifier insert of a two-identifier list
rolls the whole call back to the empty store. -/
theorem createList_atomic_witness :
    (runCreateList wFaultAtOne emptyStore wListData).2.isSome = true
    ∧ (runCreateList wFaultAtOne emptyStore wListData).1 = emptyStore := by
  refine ⟨by decide, ?_⟩
  exact ((createList_atomic wFaultAtOne emptyStore wListData
    (by intro l hl; simp [emptyStore] at hl)
    (by intro x hx; simp [emptyStore] at hx)).1 (by decide)).1

end Falcon
